import Mathlib

/-!
Verification of the CRAM record-decoding engine of the noodles repository:
the LTF8 varint decoder, the encoding evaluators (`decode_byte`, `decode_itf8`,
`decode_byte_array`), the stateful record reader (`read_record`), and the
slice-wide mate-resolution pass (`resolve_mates`).

Components whose sources are present (`noodles-cram/src/reader/num/ltf8.rs`,
`noodles-cram/src/reader/record.rs`, `noodles-cram/src/data_container/slice.rs`)
are translated directly.  Components the record reader depends on but whose
sources are not available (the core bit reader, the ITF8 decoder, the canonical
Huffman decoder, value types from noodles-sam/noodles-bam) are modelled from
the design specification and are marked as such in their doc comments.
-/

namespace Noodles

/-- Interpret a natural number below `2 ^ 32` as a two's-complement signed
32-bit value (`u32` reinterpreted as `i32`). -/
def toSigned32 (n : Nat) : Int :=
  if n < 2 ^ 31 then (n : Int) else (n : Int) - 2 ^ 32

/-- Interpret a natural number below `2 ^ 64` as a two's-complement signed
64-bit value (`u64` reinterpreted as `i64`). -/
def toSigned64 (n : Nat) : Int :=
  if n < 2 ^ 63 then (n : Int) else (n : Int) - 2 ^ 64

/-- Wrap an unbounded integer into the `i32` range, the behaviour of Rust
wrapping 32-bit arithmetic. -/
def wrap32 (n : Int) : Int :=
  (n + 2 ^ 31) % 2 ^ 32 - 2 ^ 31

/-- Rust `i32 as u8`: keep the low 8 bits. -/
def u8OfInt (n : Int) : Nat :=
  (n % 256).toNat

/-- Rust `i32 as usize` on a 64-bit target: sign-extend and reinterpret. -/
def usizeOfInt (n : Int) : Nat :=
  (n % 2 ^ 64).toNat

/-- Read one byte from a byte stream (`Read::read_u8`); `none` is the
end-of-stream error. -/
def read_u8 (s : List Nat) : Option (Nat × List Nat) :=
  match s with
  | [] => none
  | b :: rest => some (b, rest)

/-- `byteorder`, `read_i64::<BigEndian>`: eight bytes assembled big-endian and
reinterpreted as a signed 64-bit integer. -/
def read_i64_be (s : List Nat) : Option (Int × List Nat) := do
  let (b1, s) ← read_u8 s
  let (b2, s) ← read_u8 s
  let (b3, s) ← read_u8 s
  let (b4, s) ← read_u8 s
  let (b5, s) ← read_u8 s
  let (b6, s) ← read_u8 s
  let (b7, s) ← read_u8 s
  let (b8, s) ← read_u8 s
  pure (toSigned64
    (b1 <<< 56 ||| b2 <<< 48 ||| b3 <<< 40 ||| b4 <<< 32 |||
      b5 <<< 24 ||| b6 <<< 16 ||| b7 <<< 8 ||| b8), s)

/-- `noodles-cram/src/reader/num/ltf8.rs`, `read_ltf8`: the 1–9 byte LTF8
decoder, keyed on the count of leading set bits of the first byte.  All
arithmetic of the source is on nonnegative `i64` values, so it is carried out
on `Nat` here; the terminal tier reads a plain big-endian signed 64-bit
integer. -/
def read_ltf8 (s : List Nat) : Option (Int × List Nat) := do
  let (b0, s) ← read_u8 s
  if b0 &&& 0x80 == 0 then
    pure ((b0 : Int), s)
  else if b0 &&& 0x40 == 0 then
    let (b1, s) ← read_u8 s
    pure (((b0 &&& 0x7f) <<< 8 ||| b1 : Nat), s)
  else if b0 &&& 0x20 == 0 then
    let (b1, s) ← read_u8 s
    let (b2, s) ← read_u8 s
    pure (((b0 &&& 0x3f) <<< 16 ||| b1 <<< 8 ||| b2 : Nat), s)
  else if b0 &&& 0x10 == 0 then
    let (b1, s) ← read_u8 s
    let (b2, s) ← read_u8 s
    let (b3, s) ← read_u8 s
    pure (((b0 &&& 0x1f) <<< 24 ||| b1 <<< 16 ||| b2 <<< 8 ||| b3 : Nat), s)
  else if b0 &&& 0x08 == 0 then
    let (b1, s) ← read_u8 s
    let (b2, s) ← read_u8 s
    let (b3, s) ← read_u8 s
    let (b4, s) ← read_u8 s
    pure (((b0 &&& 0x0f) <<< 32 ||| b1 <<< 24 ||| b2 <<< 16 ||| b3 <<< 8 ||| b4 : Nat), s)
  else if b0 &&& 0x04 == 0 then
    let (b1, s) ← read_u8 s
    let (b2, s) ← read_u8 s
    let (b3, s) ← read_u8 s
    let (b4, s) ← read_u8 s
    let (b5, s) ← read_u8 s
    pure (((b0 &&& 0x07) <<< 40 ||| b1 <<< 32 ||| b2 <<< 24 ||| b3 <<< 16 |||
      b4 <<< 8 ||| b5 : Nat), s)
  else if b0 &&& 0x02 == 0 then
    let (b1, s) ← read_u8 s
    let (b2, s) ← read_u8 s
    let (b3, s) ← read_u8 s
    let (b4, s) ← read_u8 s
    let (b5, s) ← read_u8 s
    let (b6, s) ← read_u8 s
    pure (((b0 &&& 0x03) <<< 48 ||| b1 <<< 40 ||| b2 <<< 32 ||| b3 <<< 24 |||
      b4 <<< 16 ||| b5 <<< 8 ||| b6 : Nat), s)
  else if b0 &&& 0x01 == 0 then
    let (b1, s) ← read_u8 s
    let (b2, s) ← read_u8 s
    let (b3, s) ← read_u8 s
    let (b4, s) ← read_u8 s
    let (b5, s) ← read_u8 s
    let (b6, s) ← read_u8 s
    let (b7, s) ← read_u8 s
    pure ((b1 <<< 48 ||| b2 <<< 40 ||| b3 <<< 32 ||| b4 <<< 24 |||
      b5 <<< 16 ||| b6 <<< 8 ||| b7 : Nat), s)
  else
    read_i64_be s

/-!
## Encoding descriptors and the decoding state

`noodles-cram/src/data_container/compression_header/encoding.rs` (the closed
tagged union of coding strategies) and the decoding state of
`noodles-cram/src/reader/record.rs`.
-/

/-- The closed catalogue of per-field coding strategies (`Encoding`).
`huffman` carries the alphabet and the parallel code-length list; `beta`
carries the offset and the bit width; `byteArrayLen` nests a length encoding
and a value encoding; `byteArrayStop` carries the sentinel byte and the
external block content id. -/
inductive Encoding where
  | external : Int → Encoding
  | huffman : List Int → List Int → Encoding
  | beta : Int → Nat → Encoding
  | byteArrayLen : Encoding → Encoding → Encoding
  | byteArrayStop : Nat → Int → Encoding
deriving DecidableEq

/-- The logical data series of the data-series encoding map
(`data_series_encoding_map.rs`). -/
inductive DataSeries where
  | bamBitFlags | cramBitFlags | referenceId | readLengths | inSeqPositions
  | readGroups | readNames | nextMateBitFlags | nextFragmentReferenceSequenceId
  | nextMateAlignmentStart | templateSize | distanceToNextFragment | tagIds
  | numberOfReadFeatures | readFeaturesCodes | inReadPositions | deletionLengths
  | stretchesOfBases | stretchesOfQualityScores | baseSubstitutionCodes
  | insertion | referenceSkipLength | padding | hardClip | softClip
  | mappingQualities | bases | qualityScores | reservedTc | reservedTn
deriving DecidableEq

/-- A tag key: the two-character tag id together with the declared value
type byte (`record/tag.rs`, `Key`). -/
structure TagKey where
  tag : Nat × Nat
  ty : Nat
deriving DecidableEq

/-- The error taxonomy of `reader/record.rs`: the `ReadRecordError` variants
plus the generic `InvalidData` conversion errors and premature end of
stream. -/
inductive DecodeError where
  | missingDataSeriesEncoding : DataSeries → DecodeError
  | missingTagEncoding : TagKey → DecodeError
  | missingExternalBlock : Int → DecodeError
  | invalidData : String → DecodeError
  | unexpectedEof : DecodeError
deriving DecidableEq

/-- The outcome of a fallible decoding step: a value, a recoverable
`io::Error`, or a Rust panic (`todo!`, `expect`, out-of-bounds indexing). -/
inductive DResult (α : Type) where
  | ok : α → DResult α
  | err : DecodeError → DResult α
  | panic : String → DResult α
deriving DecidableEq

/-- `true` exactly on `DResult.err`. -/
def DResult.isErr : DResult α → Bool
  | .err _ => true
  | _ => false

/-- `true` exactly on `DResult.ok`. -/
def DResult.isOk : DResult α → Bool
  | .ok _ => true
  | _ => false

/-- Project the payload of a successful result through `f`. -/
def DResult.projOk (f : α → β) : DResult α → Option β
  | .ok a => some (f a)
  | _ => none

/-- The mutable state of the record reader: the core bit stream (already
flattened to MSB-first bits), the named external byte streams, and the
previous alignment start used for delta coding. -/
structure ReaderState where
  core : List Bool
  external : List (Int × List Nat)
  prevAlignmentStart : Option Int
deriving DecidableEq

/-- A stateful decoding computation over the reader state. -/
def DecodeM (α : Type) : Type :=
  ReaderState → DResult (α × ReaderState)

/-- Return a value without touching the state. -/
def DecodeM.pure (a : α) : DecodeM α := fun s => .ok (a, s)

/-- Sequence two decoding computations; errors and panics short-circuit. -/
def DecodeM.bind (m : DecodeM α) (f : α → DecodeM β) : DecodeM β := fun s =>
  match m s with
  | .ok (a, s1) => f a s1
  | .err e => .err e
  | .panic msg => .panic msg

/-- Fail with a recoverable decode error. -/
def DecodeM.throw (e : DecodeError) : DecodeM α := fun _ => .err e

/-- Abort with a Rust panic. -/
def DecodeM.abort (msg : String) : DecodeM α := fun _ => .panic msg

/-- Lift an optional value, failing with `e` when it is absent
(`Option::ok_or_else`). -/
def DecodeM.ofOption (o : Option α) (e : DecodeError) : DecodeM α := fun s =>
  match o with
  | some a => .ok (a, s)
  | none => .err e

/-- Read the stored previous alignment start. -/
def DecodeM.getPrevAlignmentStart : DecodeM (Option Int) := fun s =>
  .ok (s.prevAlignmentStart, s)

/-- Look up an external stream by block content id
(`ExternalDataReaders::get_mut`). -/
def getExternal (streams : List (Int × List Nat)) (id : Int) : Option (List Nat) :=
  streams.lookup id

/-- Replace the remaining bytes of the external stream `id`. -/
def setExternal (streams : List (Int × List Nat)) (id : Int) (v : List Nat) :
    List (Int × List Nat) :=
  streams.map fun p => if p.1 = id then (p.1, v) else p

/-!
## Spec-modelled collaborators

The core bit reader, the ITF8 decoder, and the canonical Huffman decoder are
used by `reader/record.rs` but their sources are not available; they are
modelled here from §§3, 4.2, 4.3 and 6 of the design specification.
-/

/-- Assemble a run of bits MSB-first into a natural number. -/
def natOfBits (bits : List Bool) : Nat :=
  bits.foldl (fun acc b => 2 * acc + b.toNat) 0

/-- Modelled from the spec (§4.2, source `bit_reader.rs` not available):
`read_bits(n)` reads `n` bits MSB-first from the core stream; reading past
the end of the buffer is an end-of-data error. -/
def read_u32 (n : Nat) (bits : List Bool) : Option (Nat × List Bool) :=
  if n ≤ bits.length then some (natOfBits (bits.take n), bits.drop n) else none

/-- Modelled from the spec (§§3, 6, source `itf8.rs` not available): the 1–5
byte ITF8 decoder.  The number of leading set bits of the first byte selects
the length; the five-byte form takes the top four bits of a 32-bit value from
the first byte's low nibble and the last byte whole. -/
def read_itf8 (s : List Nat) : Option (Int × List Nat) := do
  let (b0, s) ← read_u8 s
  if b0 &&& 0x80 == 0 then
    pure ((b0 : Int), s)
  else if b0 &&& 0x40 == 0 then
    let (b1, s) ← read_u8 s
    pure (((b0 &&& 0x7f) <<< 8 ||| b1 : Nat), s)
  else if b0 &&& 0x20 == 0 then
    let (b1, s) ← read_u8 s
    let (b2, s) ← read_u8 s
    pure (((b0 &&& 0x3f) <<< 16 ||| b1 <<< 8 ||| b2 : Nat), s)
  else if b0 &&& 0x10 == 0 then
    let (b1, s) ← read_u8 s
    let (b2, s) ← read_u8 s
    let (b3, s) ← read_u8 s
    pure (((b0 &&& 0x1f) <<< 24 ||| b1 <<< 16 ||| b2 <<< 8 ||| b3 : Nat), s)
  else
    let (b1, s) ← read_u8 s
    let (b2, s) ← read_u8 s
    let (b3, s) ← read_u8 s
    let (b4, s) ← read_u8 s
    pure (toSigned32
      ((b0 &&& 0x0f) <<< 28 ||| b1 <<< 20 ||| b2 <<< 12 ||| b3 <<< 4 ||| b4), s)

/-- Insert an `(symbol, length, index)` entry keeping the list sorted by
ascending (length, index). -/
def huffmanInsert (x : Int × Nat × Nat) :
    List (Int × Nat × Nat) → List (Int × Nat × Nat)
  | [] => [x]
  | y :: ys =>
    if x.2.1 < y.2.1 ∨ (x.2.1 = y.2.1 ∧ x.2.2 ≤ y.2.2) then x :: y :: ys
    else y :: huffmanInsert x ys

/-- Sort Huffman entries by ascending (length, index). -/
def huffmanSort : List (Int × Nat × Nat) → List (Int × Nat × Nat)
  | [] => []
  | x :: xs => huffmanInsert x (huffmanSort xs)

/-- Assign canonical codes in ascending (length, index) order: each code is
the previous code plus one, shifted left by the growth in length. -/
def assignCodes (code prevLen : Nat) :
    List (Int × Nat × Nat) → List (Int × Nat × Nat)
  | [] => []
  | (sym, len, _) :: rest =>
    let code := code <<< (len - prevLen)
    (sym, len, code) :: assignCodes (code + 1) len rest

/-- Walk bits from the core stream, extending a candidate code until it
matches a known (length, code) pair; `fuel` bounds the code length. -/
def huffmanDecodeGo (table : List (Int × Nat × Nat)) :
    Nat → Nat → Nat → List Bool → Option (Int × List Bool)
  | 0, _, _, _ => none
  | fuel + 1, len, code, bits =>
    match table.find? fun e => e.2.1 == len && e.2.2 == code with
    | some e => some (e.1, bits)
    | none =>
      match bits with
      | [] => none
      | b :: rest => huffmanDecodeGo table fuel (len + 1) (2 * code + b.toNat) rest

/-- Modelled from the spec (§4.3, source `huffman.rs` not available): the
canonical Huffman decoder built from parallel (alphabet, code length)
arrays.  Construction assigns canonical codes by ascending (length, symbol
index); decode walks bits from the core stream until a known (length, code)
pair matches, and any exhaustion is a decode error. -/
def huffmanDecode (alphabet : List Int) (bitLens : List Int) (bits : List Bool) :
    Option (Int × List Bool) :=
  let entries := (alphabet.zip bitLens).enum.map fun p => (p.2.1, p.2.2.toNat, p.1)
  let table := assignCodes 0 0 (huffmanSort entries)
  huffmanDecodeGo table 33 0 0 bits

/-!
## The encoding evaluator

`decode_byte`, `decode_itf8` and `decode_byte_array` of
`noodles-cram/src/reader/record.rs` (lines 906–1037).  Variants outside the
supported set of a shape hit the Rust `todo!` macro, i.e. a panic.
-/

/-- `reader/record.rs`, `decode_byte`: evaluate an encoding to one byte.
`External` reads one raw byte, a single-symbol Huffman alphabet is returned
directly, `Beta` is a fixed-width read minus the offset, truncated with `as
u8`; any other variant is `todo!`. -/
def decode_byte (encoding : Encoding) : DecodeM Nat := fun s =>
  match encoding with
  | .external blockContentId =>
    match getExternal s.external blockContentId with
    | none => .err (.missingExternalBlock blockContentId)
    | some stream =>
      match stream with
      | [] => .err .unexpectedEof
      | b :: rest =>
        .ok (b, { s with external := setExternal s.external blockContentId rest })
  | .huffman alphabet bitLens =>
    if alphabet.length = 1 then
      .ok (u8OfInt alphabet.headI, s)
    else
      match huffmanDecode alphabet bitLens s.core with
      | some (i, core1) => .ok (u8OfInt i, { s with core := core1 })
      | none => .err .unexpectedEof
  | .beta offset len =>
    match read_u32 len s.core with
    | some (i, core1) =>
      .ok (u8OfInt (wrap32 (toSigned32 i - offset)), { s with core := core1 })
    | none => .err .unexpectedEof
  | _ => .panic "decode_byte: unimplemented encoding"

/-- `reader/record.rs`, `decode_itf8`: evaluate an encoding to one integer.
`External` reads an ITF8 value, a single-symbol Huffman alphabet is returned
directly, `Beta` is a fixed-width read minus the offset with no narrowing;
any other variant is `todo!`. -/
def decode_itf8 (encoding : Encoding) : DecodeM Int := fun s =>
  match encoding with
  | .external blockContentId =>
    match getExternal s.external blockContentId with
    | none => .err (.missingExternalBlock blockContentId)
    | some stream =>
      match read_itf8 stream with
      | none => .err .unexpectedEof
      | some (n, rest) =>
        .ok (n, { s with external := setExternal s.external blockContentId rest })
  | .huffman alphabet bitLens =>
    if alphabet.length = 1 then
      .ok (alphabet.headI, s)
    else
      match huffmanDecode alphabet bitLens s.core with
      | some (i, core1) => .ok (i, { s with core := core1 })
      | none => .err .unexpectedEof
  | .beta offset len =>
    match read_u32 len s.core with
    | some (i, core1) =>
      .ok (wrap32 (toSigned32 i - offset), { s with core := core1 })
    | none => .err .unexpectedEof
  | _ => .panic "decode_itf8: unimplemented encoding"

/-- `BufRead::read_until`: consume bytes up to and including the first
occurrence of `delim`, or the whole stream when the delimiter is absent.
Returns the bytes read and the remaining stream. -/
def read_until (delim : Nat) (stream : List Nat) : List Nat × List Nat :=
  match stream.findIdx? (· == delim) with
  | some i => (stream.take (i + 1), stream.drop (i + 1))
  | none => (stream, [])

/-- `reader/record.rs`, `decode_byte_array`: evaluate an encoding to a byte
array.  `External` fills the caller-supplied buffer — absent buffer is
`expect("missing buf")`, a panic; `ByteArrayLen` decodes a length and recurses
with a buffer of that size; `ByteArrayStop` reads the external stream through
`read_until` and pops the trailing byte; any other variant is `todo!`. -/
def decode_byte_array (encoding : Encoding) (buf : Option (List Nat)) :
    DecodeM (List Nat) := fun s =>
  match encoding with
  | .external blockContentId =>
    match getExternal s.external blockContentId with
    | none => .err (.missingExternalBlock blockContentId)
    | some stream =>
      match buf with
      | none => .panic "missing buf"
      | some b =>
        if b.length ≤ stream.length then
          .ok (stream.take b.length,
            { s with external := setExternal s.external blockContentId (stream.drop b.length) })
        else
          .err .unexpectedEof
  | .byteArrayLen lenEncoding valueEncoding =>
    match decode_itf8 lenEncoding s with
    | .ok (len, s1) =>
      decode_byte_array valueEncoding (some (List.replicate (usizeOfInt len) 0)) s1
    | .err e => .err e
    | .panic msg => .panic msg
  | .byteArrayStop stopByte blockContentId =>
    match getExternal s.external blockContentId with
    | none => .err (.missingExternalBlock blockContentId)
    | some stream =>
      let r := read_until stopByte stream
      .ok (r.1.dropLast,
        { s with external := setExternal s.external blockContentId r.2 })
  | .huffman _ _ => .panic "decode_byte_array: unimplemented encoding"
  | .beta _ _ => .panic "decode_byte_array: unimplemented encoding"

/-!
## The compression header and the record model

`DataSeriesEncodingMap` keeps one slot per logical field; the slots the
record reader consumes through `ok_or_else` are optional, the remaining six
are mandatory (their accessors return `&Encoding` directly).
-/

/-- `data_container/compression_header/data_series_encoding_map.rs`: the
per-field encoding slots. -/
structure DataSeriesEncodingMap where
  bamBitFlagsEncoding : Encoding
  cramBitFlagsEncoding : Encoding
  referenceIdEncoding : Option Encoding := none
  readLengthsEncoding : Encoding
  inSeqPositionsEncoding : Encoding
  readGroupsEncoding : Encoding
  readNamesEncoding : Option Encoding := none
  nextMateBitFlagsEncoding : Option Encoding := none
  nextFragmentReferenceSequenceIdEncoding : Option Encoding := none
  nextMateAlignmentStartEncoding : Option Encoding := none
  templateSizeEncoding : Option Encoding := none
  distanceToNextFragmentEncoding : Option Encoding := none
  tagIdsEncoding : Encoding
  numberOfReadFeaturesEncoding : Option Encoding := none
  readFeaturesCodesEncoding : Option Encoding := none
  inReadPositionsEncoding : Option Encoding := none
  deletionLengthsEncoding : Option Encoding := none
  stretchesOfBasesEncoding : Option Encoding := none
  stretchesOfQualityScoresEncoding : Option Encoding := none
  baseSubstitutionCodesEncoding : Option Encoding := none
  insertionEncoding : Option Encoding := none
  referenceSkipLengthEncoding : Option Encoding := none
  paddingEncoding : Option Encoding := none
  hardClipEncoding : Option Encoding := none
  softClipEncoding : Option Encoding := none
  mappingQualitiesEncoding : Option Encoding := none
  basesEncoding : Option Encoding := none
  qualityScoresEncoding : Option Encoding := none
deriving DecidableEq

/-- `preservation_map.rs`: whether read names are stored explicitly, whether
alignment starts are delta-coded, and the tag-id dictionary of ordered
key-sets indexed by the per-record tag line. -/
structure PreservationMap where
  readNamesIncluded : Bool
  apDataSeriesDelta : Bool
  tagIdsDictionary : List (List TagKey)
deriving DecidableEq

/-- The compression header: the preservation map, the data-series encoding
map, and the tag encoding map keyed by tag key. -/
structure CompressionHeader where
  preservationMap : PreservationMap
  dataSeriesEncodingMap : DataSeriesEncodingMap
  tagEncodingMap : List (TagKey × Encoding)
deriving DecidableEq

/-- `record/feature.rs`: the read-vs-reference edit operations, each carrying
the resolved in-read position. -/
inductive Feature where
  | bases : Int → List Nat → Feature
  | scores : Int → List Nat → Feature
  | readBase : Int → Nat → Nat → Feature
  | substitution : Int → Nat → Feature
  | insertion : Int → List Nat → Feature
  | deletion : Int → Int → Feature
  | insertBase : Int → Nat → Feature
  | qualityScore : Int → Nat → Feature
  | referenceSkip : Int → Int → Feature
  | softClip : Int → List Nat → Feature
  | padding : Int → Int → Feature
  | hardClip : Int → Int → Feature
deriving DecidableEq

/-- The resolved in-read position of a feature (`Feature::position`). -/
def Feature.position : Feature → Int
  | .bases p _ => p
  | .scores p _ => p
  | .readBase p _ _ => p
  | .substitution p _ => p
  | .insertion p _ => p
  | .deletion p _ => p
  | .insertBase p _ => p
  | .qualityScore p _ => p
  | .referenceSkip p _ => p
  | .softClip p _ => p
  | .padding p _ => p
  | .hardClip p _ => p

/-- The feature codes of `record/feature/code.rs`. -/
inductive FeatureCode where
  | bases | scores | readBase | substitution | insertion | deletion
  | insertBase | qualityScore | referenceSkip | softClip | padding | hardClip
deriving DecidableEq

/-- Modelled from the spec (§4.6, source `feature/code.rs` not available):
the feature code byte read for each feature, mapped to the edit-operation
kind; an unknown byte is a representational error. -/
def featureCodeOfByte (b : Nat) : Option FeatureCode :=
  if b = 98 then some .bases            -- 'b'
  else if b = 113 then some .scores     -- 'q'
  else if b = 66 then some .readBase    -- 'B'
  else if b = 88 then some .substitution -- 'X'
  else if b = 73 then some .insertion   -- 'I'
  else if b = 68 then some .deletion    -- 'D'
  else if b = 105 then some .insertBase -- 'i'
  else if b = 81 then some .qualityScore -- 'Q'
  else if b = 78 then some .referenceSkip -- 'N'
  else if b = 83 then some .softClip    -- 'S'
  else if b = 80 then some .padding     -- 'P'
  else if b = 72 then some .hardClip    -- 'H'
  else none

/-- A decoded optional tag: its key and its value bytes. -/
abbrev TagEntry : Type := TagKey × List Nat

/-- Modelled from the spec (§4.6, `bam` value parsing not available): parse
the decoded byte array per the tag's declared value type.  The byte-level
value format is outside this subsystem, so the raw bytes are kept. -/
def read_value (_ty : Nat) (data : List Nat) : List Nat := data

/-- `record.rs` of noodles-cram: a CRAM record under construction.
`alignmentEnd` is modelled from the spec (§4.7): the record's alignment end
position, computed outside the shown sources from the alignment start, the
read length and the features, and only read by mate resolution. -/
structure CramRecord where
  id : Int := 0
  bamBitFlags : Nat := 0
  cramBitFlags : Nat := 0
  referenceSequenceId : Option Int := none
  readLength : Nat := 0
  alignmentStart : Option Int := none
  alignmentEnd : Int := 0
  readGroup : Int := 0
  readName : List Nat := []
  nextMateBitFlags : Nat := 0
  nextFragmentReferenceSequenceId : Option Int := none
  nextMateAlignmentStart : Option Int := none
  templateSize : Int := 0
  distanceToNextFragment : Int := 0
  tags : List TagEntry := []
  features : List Feature := []
  mappingQuality : Option Nat := none
  bases : List Nat := []
  qualityScores : List Nat := []
deriving DecidableEq

instance : Inhabited CramRecord := ⟨{}⟩

/-- SAM flag bit 0x4: the segment is unmapped. -/
def samIsUnmapped (f : Nat) : Bool := f.testBit 2

/-- SAM flag bit 0x10: the sequence is reverse complemented. -/
def samIsReverseComplemented (f : Nat) : Bool := f.testBit 4

/-- CRAM record flag bit 0x1: quality scores are stored as an array. -/
def cramQualityScoresStoredAsArray (f : Nat) : Bool := f.testBit 0

/-- CRAM record flag bit 0x2: mate information is stored directly
(detached). -/
def cramIsDetached (f : Nat) : Bool := f.testBit 1

/-- CRAM record flag bit 0x4: the mate is downstream in the same slice. -/
def cramHasMateDownstream (f : Nat) : Bool := f.testBit 2

/-- Next-mate flag bit 0x1: the mate is on the negative strand. -/
def nextMateIsOnNegativeStrand (f : Nat) : Bool := f.testBit 0

/-- Next-mate flag bit 0x2: the mate is unmapped. -/
def nextMateIsUnmapped (f : Nat) : Bool := f.testBit 1

/-- The slice header's reference sequence context
(`container/reference_sequence_id.rs`): a single reference, none (unmapped),
or many. -/
inductive ContainerRefId where
  | seqId : Int → ContainerRefId
  | unmapped : ContainerRefId
  | many : ContainerRefId
deriving DecidableEq

/-- `ReferenceSequenceId::is_many`. -/
def ContainerRefId.isMany : ContainerRefId → Bool
  | .many => true
  | _ => false

/-- `i32::from(ReferenceSequenceId)`: the raw slice-header value. -/
def ContainerRefId.toInt : ContainerRefId → Int
  | .seqId n => n
  | .unmapped => -1
  | .many => -2

/-- Modelled from the spec (noodles-bam `ReferenceSequenceId::try_from` not
available): `-1` is the unmapped sentinel and any other negative id is
invalid. -/
def bamRefSeqIdFromInt (n : Int) : Option (Option Int) :=
  if n = -1 then some none
  else if 0 ≤ n then some (some n)
  else none

/-!
## The record reader

The stateful reader of `noodles-cram/src/reader/record.rs` (lines 84–903),
one function per source method, sequenced with `DecodeM.bind`.
-/

/-- `Option::ok_or_else` on an optional data-series encoding slot, failing
with `ReadRecordError::MissingDataSeriesEncoding`. -/
def requiredEncoding (o : Option Encoding) (ds : DataSeries) : DecodeM Encoding :=
  DecodeM.ofOption o (.missingDataSeriesEncoding ds)

/-- `read_bam_bit_flags`: decode an integer and narrow to `u16` via
`try_from`, failing on an out-of-range value. -/
def read_bam_bit_flags (h : CompressionHeader) : DecodeM Nat :=
  DecodeM.bind (decode_itf8 h.dataSeriesEncodingMap.bamBitFlagsEncoding) fun n =>
  if 0 ≤ n ∧ n < 65536 then DecodeM.pure n.toNat
  else DecodeM.throw (.invalidData "out of range integral type conversion")

/-- `read_cram_bit_flags`: decode an integer and narrow to `u8` via
`try_from`. -/
def read_cram_bit_flags (h : CompressionHeader) : DecodeM Nat :=
  DecodeM.bind (decode_itf8 h.dataSeriesEncodingMap.cramBitFlagsEncoding) fun n =>
  if 0 ≤ n ∧ n < 256 then DecodeM.pure n.toNat
  else DecodeM.throw (.invalidData "out of range integral type conversion")

/-- `read_reference_id`. -/
def read_reference_id (h : CompressionHeader) : DecodeM Int :=
  DecodeM.bind
    (requiredEncoding h.dataSeriesEncodingMap.referenceIdEncoding .referenceId)
    fun encoding => decode_itf8 encoding

/-- `read_read_length`: decode an integer and narrow to `usize`. -/
def read_read_length (h : CompressionHeader) : DecodeM Nat :=
  DecodeM.bind (decode_itf8 h.dataSeriesEncodingMap.readLengthsEncoding) fun n =>
  if 0 ≤ n then DecodeM.pure n.toNat
  else DecodeM.throw (.invalidData "out of range integral type conversion")

/-- `read_alignment_start`: decode the in-seq position; when the preservation
map's delta flag is set, add it to the previous alignment start (0 when
unset).  A resulting 0 is the unset position; a negative result is an invalid
position (the position type is modelled from the spec as a positive 1-based
coordinate). -/
def read_alignment_start (h : CompressionHeader) : DecodeM (Option Int) :=
  DecodeM.bind (decode_itf8 h.dataSeriesEncodingMap.inSeqPositionsEncoding) fun n =>
  DecodeM.bind DecodeM.getPrevAlignmentStart fun prev =>
  let alignmentStart :=
    if h.preservationMap.apDataSeriesDelta then wrap32 (prev.getD 0 + n) else n
  if alignmentStart = 0 then DecodeM.pure none
  else if 0 < alignmentStart then DecodeM.pure (some alignmentStart)
  else DecodeM.throw (.invalidData "invalid position")

/-- `read_read_group`. -/
def read_read_group (h : CompressionHeader) : DecodeM Int :=
  decode_itf8 h.dataSeriesEncodingMap.readGroupsEncoding

/-- `read_positional_data`: reference id (from the slice header unless the
slice spans many references), read length, alignment start, read group.
Returns the updated record and the read length. -/
def read_positional_data (h : CompressionHeader) (rid : ContainerRefId)
    (record : CramRecord) : DecodeM (CramRecord × Nat) :=
  DecodeM.bind
    (if rid.isMany then read_reference_id h else DecodeM.pure rid.toInt)
    fun referenceId =>
  DecodeM.bind
    (DecodeM.ofOption (bamRefSeqIdFromInt referenceId)
      (.invalidData "invalid reference sequence id"))
    fun refSeqId =>
  DecodeM.bind (read_read_length h) fun readLength =>
  DecodeM.bind (read_alignment_start h) fun alignmentStart =>
  DecodeM.bind (read_read_group h) fun readGroup =>
  DecodeM.pure
    ({ record with
        referenceSequenceId := refSeqId
        readLength := readLength
        alignmentStart := alignmentStart
        readGroup := readGroup }, readLength)

/-- `read_read_name`. -/
def read_read_name (h : CompressionHeader) : DecodeM (List Nat) :=
  DecodeM.bind
    (requiredEncoding h.dataSeriesEncodingMap.readNamesEncoding .readNames)
    fun encoding => decode_byte_array encoding none

/-- `read_read_names`: read the name only when the preservation map stores
names explicitly; missing names are generated during mate resolution. -/
def read_read_names (h : CompressionHeader) (record : CramRecord) :
    DecodeM CramRecord :=
  if h.preservationMap.readNamesIncluded then
    DecodeM.bind (read_read_name h) fun name =>
    DecodeM.pure { record with readName := name }
  else
    DecodeM.pure record

/-- `read_next_mate_bit_flags`: decode and narrow to `u8`. -/
def read_next_mate_bit_flags (h : CompressionHeader) : DecodeM Nat :=
  DecodeM.bind
    (requiredEncoding h.dataSeriesEncodingMap.nextMateBitFlagsEncoding
      .nextMateBitFlags)
    fun encoding =>
  DecodeM.bind (decode_itf8 encoding) fun n =>
  if 0 ≤ n ∧ n < 256 then DecodeM.pure n.toNat
  else DecodeM.throw (.invalidData "out of range integral type conversion")

/-- `read_next_fragment_reference_sequence_id`. -/
def read_next_fragment_reference_sequence_id (h : CompressionHeader) :
    DecodeM (Option Int) :=
  DecodeM.bind
    (requiredEncoding h.dataSeriesEncodingMap.nextFragmentReferenceSequenceIdEncoding
      .nextFragmentReferenceSequenceId)
    fun encoding =>
  DecodeM.bind (decode_itf8 encoding) fun id =>
  DecodeM.ofOption (bamRefSeqIdFromInt id)
    (.invalidData "invalid reference sequence id")

/-- `read_next_mate_alignment_start`: 0 is the unset position. -/
def read_next_mate_alignment_start (h : CompressionHeader) :
    DecodeM (Option Int) :=
  DecodeM.bind
    (requiredEncoding h.dataSeriesEncodingMap.nextMateAlignmentStartEncoding
      .nextMateAlignmentStart)
    fun encoding =>
  DecodeM.bind (decode_itf8 encoding) fun n =>
  if n = 0 then DecodeM.pure none
  else if 0 < n then DecodeM.pure (some n)
  else DecodeM.throw (.invalidData "invalid position")

/-- `read_template_size`. -/
def read_template_size (h : CompressionHeader) : DecodeM Int :=
  DecodeM.bind
    (requiredEncoding h.dataSeriesEncodingMap.templateSizeEncoding .templateSize)
    fun encoding => decode_itf8 encoding

/-- `read_distance_to_next_fragment`. -/
def read_distance_to_next_fragment (h : CompressionHeader) : DecodeM Int :=
  DecodeM.bind
    (requiredEncoding h.dataSeriesEncodingMap.distanceToNextFragmentEncoding
      .distanceToNextFragment)
    fun encoding => decode_itf8 encoding

/-- `read_mate_data`: when detached, read the mate bit flags (folding the
mate-reverse/mate-unmapped bits into the BAM flags), conditionally the read
name, then the mate reference id, mate alignment start and template size;
when the mate is downstream, read only the distance to the next fragment. -/
def read_mate_data (h : CompressionHeader) (record : CramRecord)
    (bamFlags flags : Nat) : DecodeM CramRecord :=
  if cramIsDetached flags then
    DecodeM.bind (read_next_mate_bit_flags h) fun nextMateBitFlags =>
    let bamFlags :=
      if nextMateIsOnNegativeStrand nextMateBitFlags then bamFlags ||| 0x20
      else bamFlags
    let bamFlags :=
      if nextMateIsUnmapped nextMateBitFlags then bamFlags ||| 0x8 else bamFlags
    let record :=
      { record with nextMateBitFlags := nextMateBitFlags, bamBitFlags := bamFlags }
    DecodeM.bind
      (if h.preservationMap.readNamesIncluded then DecodeM.pure record
       else
         DecodeM.bind (read_read_name h) fun name =>
         DecodeM.pure { record with readName := name })
      fun record =>
    DecodeM.bind (read_next_fragment_reference_sequence_id h) fun nfrsi =>
    DecodeM.bind (read_next_mate_alignment_start h) fun nmas =>
    DecodeM.bind (read_template_size h) fun ts =>
    DecodeM.pure
      { record with
          nextFragmentReferenceSequenceId := nfrsi
          nextMateAlignmentStart := nmas
          templateSize := ts }
  else if cramHasMateDownstream flags then
    DecodeM.bind (read_distance_to_next_fragment h) fun d =>
    DecodeM.pure { record with distanceToNextFragment := d }
  else
    DecodeM.pure record

/-- `read_tag_line`. -/
def read_tag_line (h : CompressionHeader) : DecodeM Int :=
  decode_itf8 h.dataSeriesEncodingMap.tagIdsEncoding

/-- The per-key loop of `read_tag_data`: look up each key's encoding in the
tag encoding map, decode the value byte array and parse it. -/
def read_tag_entries (h : CompressionHeader) : List TagKey → DecodeM (List TagEntry)
  | [] => DecodeM.pure []
  | key :: rest =>
    DecodeM.bind
      (DecodeM.ofOption (h.tagEncodingMap.lookup key) (.missingTagEncoding key))
      fun encoding =>
    DecodeM.bind (decode_byte_array encoding none) fun data =>
    DecodeM.bind (read_tag_entries h rest) fun entries =>
    DecodeM.pure ((key, read_value key.ty data) :: entries)

/-- `read_tag_data`: read the tag line, index the tag dictionary with it (an
out-of-range line is the structural "invalid tag line" error), then decode
each keyed tag value. -/
def read_tag_data (h : CompressionHeader) : DecodeM (List TagEntry) :=
  DecodeM.bind (read_tag_line h) fun i =>
  DecodeM.bind
    (if 0 ≤ i then DecodeM.pure i.toNat
     else DecodeM.throw (.invalidData "out of range integral type conversion"))
    fun tagLine =>
  DecodeM.bind
    (DecodeM.ofOption h.preservationMap.tagIdsDictionary[tagLine]?
      (.invalidData "invalid tag line"))
    fun tagKeys =>
  read_tag_entries h tagKeys

/-- `read_number_of_read_features`. -/
def read_number_of_read_features (h : CompressionHeader) : DecodeM Int :=
  DecodeM.bind
    (requiredEncoding h.dataSeriesEncodingMap.numberOfReadFeaturesEncoding
      .numberOfReadFeatures)
    fun encoding => decode_itf8 encoding

/-- `read_feature_code`: decode an integer, truncate it to a byte and map it
to a feature code; an unknown code is a representational error. -/
def read_feature_code (h : CompressionHeader) : DecodeM FeatureCode :=
  DecodeM.bind
    (requiredEncoding h.dataSeriesEncodingMap.readFeaturesCodesEncoding
      .readFeaturesCodes)
    fun encoding =>
  DecodeM.bind (decode_itf8 encoding) fun n =>
  DecodeM.ofOption (featureCodeOfByte (u8OfInt n)) (.invalidData "invalid feature code")

/-- `read_feature_position`. -/
def read_feature_position (h : CompressionHeader) : DecodeM Int :=
  DecodeM.bind
    (requiredEncoding h.dataSeriesEncodingMap.inReadPositionsEncoding
      .inReadPositions)
    fun encoding => decode_itf8 encoding

/-- `read_stretches_of_bases`. -/
def read_stretches_of_bases (h : CompressionHeader) : DecodeM (List Nat) :=
  DecodeM.bind
    (requiredEncoding h.dataSeriesEncodingMap.stretchesOfBasesEncoding
      .stretchesOfBases)
    fun encoding => decode_byte_array encoding none

/-- `read_stretches_of_quality_scores`. -/
def read_stretches_of_quality_scores (h : CompressionHeader) : DecodeM (List Nat) :=
  DecodeM.bind
    (requiredEncoding h.dataSeriesEncodingMap.stretchesOfQualityScoresEncoding
      .stretchesOfQualityScores)
    fun encoding => decode_byte_array encoding none

/-- `read_base`. -/
def read_base (h : CompressionHeader) : DecodeM Nat :=
  DecodeM.bind
    (requiredEncoding h.dataSeriesEncodingMap.basesEncoding .bases)
    fun encoding => decode_byte encoding

/-- `read_quality_score`. -/
def read_quality_score (h : CompressionHeader) : DecodeM Nat :=
  DecodeM.bind
    (requiredEncoding h.dataSeriesEncodingMap.qualityScoresEncoding .qualityScores)
    fun encoding => decode_byte encoding

/-- `read_base_substitution_code`. -/
def read_base_substitution_code (h : CompressionHeader) : DecodeM Nat :=
  DecodeM.bind
    (requiredEncoding h.dataSeriesEncodingMap.baseSubstitutionCodesEncoding
      .baseSubstitutionCodes)
    fun encoding => decode_byte encoding

/-- `read_insertion`. -/
def read_insertion (h : CompressionHeader) : DecodeM (List Nat) :=
  DecodeM.bind
    (requiredEncoding h.dataSeriesEncodingMap.insertionEncoding .insertion)
    fun encoding => decode_byte_array encoding none

/-- `read_deletion_length`. -/
def read_deletion_length (h : CompressionHeader) : DecodeM Int :=
  DecodeM.bind
    (requiredEncoding h.dataSeriesEncodingMap.deletionLengthsEncoding
      .deletionLengths)
    fun encoding => decode_itf8 encoding

/-- `read_reference_skip_length`. -/
def read_reference_skip_length (h : CompressionHeader) : DecodeM Int :=
  DecodeM.bind
    (requiredEncoding h.dataSeriesEncodingMap.referenceSkipLengthEncoding
      .referenceSkipLength)
    fun encoding => decode_itf8 encoding

/-- `read_soft_clip`. -/
def read_soft_clip (h : CompressionHeader) : DecodeM (List Nat) :=
  DecodeM.bind
    (requiredEncoding h.dataSeriesEncodingMap.softClipEncoding .softClip)
    fun encoding => decode_byte_array encoding none

/-- `read_padding`. -/
def read_padding (h : CompressionHeader) : DecodeM Int :=
  DecodeM.bind
    (requiredEncoding h.dataSeriesEncodingMap.paddingEncoding .padding)
    fun encoding => decode_itf8 encoding

/-- `read_hard_clip`. -/
def read_hard_clip (h : CompressionHeader) : DecodeM Int :=
  DecodeM.bind
    (requiredEncoding h.dataSeriesEncodingMap.hardClipEncoding .hardClip)
    fun encoding => decode_itf8 encoding

/-- `read_mapping_quality`: decode, narrow to `u8`; 255 is the missing
value. -/
def read_mapping_quality (h : CompressionHeader) : DecodeM (Option Nat) :=
  DecodeM.bind
    (requiredEncoding h.dataSeriesEncodingMap.mappingQualitiesEncoding
      .mappingQualities)
    fun encoding =>
  DecodeM.bind (decode_itf8 encoding) fun n =>
  if 0 ≤ n ∧ n < 256 then
    (if n.toNat = 255 then DecodeM.pure none else DecodeM.pure (some n.toNat))
  else DecodeM.throw (.invalidData "out of range integral type conversion")

/-- `read_feature`: code, position delta added to the previous feature's
position, then the code-specific payload. -/
def read_feature (h : CompressionHeader) (prevPosition : Int) : DecodeM Feature :=
  DecodeM.bind (read_feature_code h) fun code =>
  DecodeM.bind (read_feature_position h) fun delta =>
  let position := wrap32 (prevPosition + delta)
  match code with
  | .bases =>
    DecodeM.bind (read_stretches_of_bases h) fun v =>
    DecodeM.pure (Feature.bases position v)
  | .scores =>
    DecodeM.bind (read_stretches_of_quality_scores h) fun v =>
    DecodeM.pure (Feature.scores position v)
  | .readBase =>
    DecodeM.bind (read_base h) fun base =>
    DecodeM.bind (read_quality_score h) fun score =>
    DecodeM.pure (Feature.readBase position base score)
  | .substitution =>
    DecodeM.bind (read_base_substitution_code h) fun c =>
    DecodeM.pure (Feature.substitution position c)
  | .insertion =>
    DecodeM.bind (read_insertion h) fun v =>
    DecodeM.pure (Feature.insertion position v)
  | .deletion =>
    DecodeM.bind (read_deletion_length h) fun len =>
    DecodeM.pure (Feature.deletion position len)
  | .insertBase =>
    DecodeM.bind (read_base h) fun base =>
    DecodeM.pure (Feature.insertBase position base)
  | .qualityScore =>
    DecodeM.bind (read_quality_score h) fun score =>
    DecodeM.pure (Feature.qualityScore position score)
  | .referenceSkip =>
    DecodeM.bind (read_reference_skip_length h) fun len =>
    DecodeM.pure (Feature.referenceSkip position len)
  | .softClip =>
    DecodeM.bind (read_soft_clip h) fun v =>
    DecodeM.pure (Feature.softClip position v)
  | .padding =>
    DecodeM.bind (read_padding h) fun len =>
    DecodeM.pure (Feature.padding position len)
  | .hardClip =>
    DecodeM.bind (read_hard_clip h) fun len =>
    DecodeM.pure (Feature.hardClip position len)

/-- `Record::add_feature`. -/
def CramRecord.addFeature (record : CramRecord) (f : Feature) : CramRecord :=
  { record with features := record.features ++ [f] }

/-- The feature loop of `read_mapped_read`: each feature's position becomes
the previous position for the next one. -/
def read_features (h : CompressionHeader) :
    Nat → Int → CramRecord → DecodeM CramRecord
  | 0, _, record => DecodeM.pure record
  | n + 1, prevPosition, record =>
    DecodeM.bind (read_feature h prevPosition) fun f =>
    read_features h n f.position (record.addFeature f)

/-- Read `n` quality scores into the record. -/
def read_n_quality_scores (h : CompressionHeader) :
    Nat → CramRecord → DecodeM CramRecord
  | 0, record => DecodeM.pure record
  | n + 1, record =>
    DecodeM.bind (read_quality_score h) fun score =>
    read_n_quality_scores h n
      { record with qualityScores := record.qualityScores ++ [score] }

/-- Read `n` bases into the record. -/
def read_n_bases (h : CompressionHeader) : Nat → CramRecord → DecodeM CramRecord
  | 0, record => DecodeM.pure record
  | n + 1, record =>
    DecodeM.bind (read_base h) fun base =>
    read_n_bases h n { record with bases := record.bases ++ [base] }

/-- `read_mapped_read`: the feature count and features, the mapping quality,
and — when stored as an array — `read_length` quality scores. -/
def read_mapped_read (h : CompressionHeader) (record : CramRecord)
    (flags : Nat) (readLength : Nat) : DecodeM CramRecord :=
  DecodeM.bind (read_number_of_read_features h) fun featureCount =>
  DecodeM.bind (read_features h featureCount.toNat 0 record) fun record =>
  DecodeM.bind (read_mapping_quality h) fun mq =>
  let record := { record with mappingQuality := mq }
  if cramQualityScoresStoredAsArray flags then
    read_n_quality_scores h readLength record
  else
    DecodeM.pure record

/-- `read_unmapped_read`: `read_length` raw bases and — when stored as an
array — `read_length` quality scores. -/
def read_unmapped_read (h : CompressionHeader) (record : CramRecord)
    (flags : Nat) (readLength : Nat) : DecodeM CramRecord :=
  DecodeM.bind (read_n_bases h readLength record) fun record =>
  if cramQualityScoresStoredAsArray flags then
    read_n_quality_scores h readLength record
  else
    DecodeM.pure record

/-- The final step of `read_record`: record the alignment start as the new
previous alignment start for the next call's delta coding. -/
def commit_record (record : CramRecord) : DecodeM CramRecord := fun s =>
  .ok (record, { s with prevAlignmentStart := record.alignmentStart })

/-- `read_record` (lines 84–109): the strictly ordered per-record state
machine — flags, positional data, read name, mate data, tags, then either the
unmapped or the mapped read payload. -/
def read_record (h : CompressionHeader) (rid : ContainerRefId) :
    DecodeM CramRecord :=
  DecodeM.bind (read_bam_bit_flags h) fun bamBitFlags =>
  DecodeM.bind (read_cram_bit_flags h) fun cramBitFlags =>
  let record : CramRecord := { bamBitFlags := bamBitFlags, cramBitFlags := cramBitFlags }
  DecodeM.bind (read_positional_data h rid record) fun p =>
  DecodeM.bind (read_read_names h p.1) fun record =>
  DecodeM.bind (read_mate_data h record bamBitFlags cramBitFlags) fun record =>
  DecodeM.bind (read_tag_data h) fun tags =>
  let record := { record with tags := tags }
  DecodeM.bind
    (if samIsUnmapped bamBitFlags then
      read_unmapped_read h record cramBitFlags p.2
     else
      read_mapped_read h record cramBitFlags p.2)
    fun record =>
  commit_record record

/-!
## Mate resolution

`noodles-cram/src/data_container/slice.rs` (lines 136–208): `resolve_mates`,
`set_mate` and `calculate_template_size`.  Rust panics — the out-of-bounds
vector index for a mate index past the end, the `RefCell` double borrow, and
(conflated with them) non-termination of a cyclic chain, cut off here by
fuel — are modelled as `none`.
-/

/-- The decimal ASCII digits of a natural number; the fuel (at least the
digit count, e.g. the number itself) keeps the recursion structural. -/
def natAsciiGo : Nat → Nat → List Nat
  | 0, n => [48 + n % 10]
  | fuel + 1, n =>
    if n < 10 then [48 + n] else natAsciiGo fuel (n / 10) ++ [48 + n % 10]

/-- The decimal ASCII digits of a natural number. -/
def natAscii (n : Nat) : List Nat :=
  natAsciiGo n n

/-- `record.id().to_string().into_bytes()`: the decimal ASCII bytes of the
record id. -/
def intAscii (i : Int) : List Nat :=
  if i < 0 then 45 :: natAscii i.natAbs else natAscii i.toNat

/-- `slice.rs` lines 144–147: the absolute mate index of a record with the
mate-downstream flag, `i + distance_to_next_fragment as usize + 1` in
wrapping `usize` arithmetic. -/
def compute_mate_index (i : Nat) (r : CramRecord) : Option Nat :=
  if cramHasMateDownstream r.cramBitFlags then
    some ((i + usizeOfInt r.distanceToNextFragment + 1) % 2 ^ 64)
  else none

/-- The first pass of `resolve_mates`: one optional mate index per record. -/
def compute_mate_indices_go : Nat → List CramRecord → List (Option Nat)
  | _, [] => []
  | i, r :: rest => compute_mate_index i r :: compute_mate_indices_go (i + 1) rest

/-- The `mate_indices` vector of `resolve_mates`. -/
def compute_mate_indices (records : List CramRecord) : List (Option Nat) :=
  compute_mate_indices_go 0 records

/-- `set_mate`: fold the mate's reverse-complement/unmapped flags into the
record's mate bits, copy the record's read name to a nameless mate, and point
the record's next-fragment fields at the mate. -/
def set_mate (record mate : CramRecord) : CramRecord × CramRecord :=
  let record :=
    if samIsReverseComplemented mate.bamBitFlags then
      { record with bamBitFlags := record.bamBitFlags ||| 0x20 }
    else record
  let record :=
    if samIsUnmapped mate.bamBitFlags then
      { record with bamBitFlags := record.bamBitFlags ||| 0x8 }
    else record
  let mate :=
    if mate.readName = [] then { mate with readName := record.readName } else mate
  let record :=
    { record with
        nextFragmentReferenceSequenceId := mate.referenceSequenceId
        nextMateAlignmentStart := mate.alignmentStart }
  (record, mate)

/-- `calculate_template_size`: the mate's alignment end minus the record's
alignment start (0 when unset) plus one, in `i32` arithmetic. -/
def calculate_template_size (record mate : CramRecord) : Int :=
  wrap32 (mate.alignmentEnd - record.alignmentStart.getD 0 + 1)

/-- The chain-following `while let` loop of `resolve_mates`: starting from
index `j`, link each record to its mate until a record with no downstream
link remains.  Returns the updated list and the index of the chain tail.
`none` models a panic: an out-of-range mate index, a `RefCell` double borrow
(a self link), or fuel exhaustion on a cyclic chain (non-termination in
Rust). -/
def chain_walk (mateIndices : List (Option Nat)) :
    Nat → List CramRecord → Nat → Option (List CramRecord × Nat)
  | 0, _, _ => none
  | fuel + 1, records, j =>
    match mateIndices[j]? with
    | none => none
    | some none => some (records, j)
    | some (some mateIndex) =>
      if mateIndex < records.length then
        if mateIndex = j then none
        else
          let p := set_mate (records.getD j default) (records.getD mateIndex default)
          chain_walk mateIndices fuel ((records.set j p.1).set mateIndex p.2) mateIndex
      else none

/-- Lines 160–163 of `resolve_mates`: a chain head with no read name gets
one synthesized from its own id. -/
def synthesize_read_name (r : CramRecord) : CramRecord :=
  if r.readName = [] then { r with readName := intAscii r.id } else r

/-- One iteration of the second pass of `resolve_mates` for index `i`: skip
records with no downstream link; otherwise synthesize the head's read name
from its id when absent, follow the chain, link the tail back to the head,
and assign the template size positively to the tail and negated to the
head. -/
def resolve_step (mateIndices : List (Option Nat)) (records : List CramRecord)
    (i : Nat) : Option (List CramRecord) :=
  match mateIndices[i]? with
  | some (some _) =>
    match chain_walk mateIndices
        ((records.set i (synthesize_read_name (records.getD i default))).length + 1)
        (records.set i (synthesize_read_name (records.getD i default))) i with
    | some (records2, tl) =>
      if tl = i then none
      else
        let p := set_mate (records2.getD tl default) (records2.getD i default)
        let ts := calculate_template_size p.1 p.2
        some (((records2.set tl { p.1 with templateSize := ts }).set i
          { p.2 with templateSize := wrap32 (-ts) }))
    | none => none
  | _ => some records

/-- The second pass of `resolve_mates` over all indices in order. -/
def resolve_loop (mateIndices : List (Option Nat)) :
    List Nat → List CramRecord → Option (List CramRecord)
  | [], records => some records
  | i :: rest, records =>
    match resolve_step mateIndices records i with
    | some records1 => resolve_loop mateIndices rest records1
    | none => none

/-- `resolve_mates` (lines 136–183): compute the mate indices, then follow
every chain, filling read names, mate linkage fields and template sizes in
place. -/
def resolve_mates (records : List CramRecord) : Option (List CramRecord) :=
  let mateIndices := compute_mate_indices records
  resolve_loop mateIndices (List.range records.length) records

/-!
## Sanity checks against the repository's unit tests
-/

example : read_ltf8 [0x00] = some (0, []) := by decide
example : read_ltf8 [0xc0, 0x55, 0xaa] = some (21930, []) := by decide
example :
    decode_byte_array (.byteArrayStop 0x00 1) none
      ⟨[], [(1, [0x6e, 0x64, 0x6c, 0x73, 0x00])], none⟩ =
    .ok ([0x6e, 0x64, 0x6c, 0x73], ⟨[], [(1, [])], none⟩) := by decide
example :
    decode_byte_array (.byteArrayLen (.external 1) (.external 1)) none
      ⟨[], [(1, [0x04, 0x6e, 0x64, 0x6c, 0x73])], none⟩ =
    .ok ([0x6e, 0x64, 0x6c, 0x73], ⟨[], [(1, [])], none⟩) := by decide
example :
    decode_byte (.beta 1 3) ⟨[true, false, false], [], none⟩ =
    .ok (3, ⟨[], [], none⟩) := by decide
example :
    decode_itf8 (.external 1) ⟨[], [(1, [0x0d])], none⟩ =
    .ok (13, ⟨[], [(1, [])], none⟩) := by decide

/-!
## Helper lemmas
-/

theorem two_mul_lor (x b : Nat) : (2 * x) ||| b = 2 * (x ||| (b / 2)) + b % 2 := by
  apply Nat.eq_of_testBit_eq
  intro i
  rw [Nat.testBit_lor]
  cases i with
  | zero =>
    simp only [Nat.testBit_zero]
    have h1 : (2 * x) % 2 = 0 := by omega
    have h2 : (2 * (x ||| b / 2) + b % 2) % 2 = b % 2 := by omega
    rw [h1, h2]
    rcases Nat.mod_two_eq_zero_or_one b with h | h <;> simp [h]
  | succ i =>
    simp only [Nat.testBit_succ]
    have h1 : 2 * x / 2 = x := by omega
    have h2 : (2 * (x ||| b / 2) + b % 2) / 2 = x ||| b / 2 := by omega
    rw [h1, h2, Nat.testBit_lor]

/-- A shifted value or-ed with a small value is their sum: the or is
disjoint. -/
theorem lor_two_pow_add (a : Nat) :
    ∀ (k b : Nat), b < 2 ^ k → a <<< k ||| b = a * 2 ^ k + b := by
  intro k
  induction k generalizing a with
  | zero =>
    intro b hb
    interval_cases b
    simp
  | succ k ih =>
    intro b hb
    have h1 : a <<< (k + 1) = 2 * (a <<< k) := by
      rw [Nat.shiftLeft_succ_inside, Nat.shiftLeft_eq, Nat.shiftLeft_eq]
      ring
    have hq : b / 2 < 2 ^ k := by
      have := Nat.pow_succ 2 k
      omega
    rw [h1, two_mul_lor, ih a (b / 2) hq]
    have := Nat.pow_succ 2 k
    omega

/-- One step of assembling big-endian bytes: absorb the next byte into the
accumulator. -/
theorem lor_byte_step (acc b k : Nat) (hb : b < 256) :
    acc <<< (k + 8) ||| b <<< k = (acc * 256 + b) <<< k := by
  have hbk : b <<< k < 2 ^ (k + 8) := by
    have := Nat.shiftLeft_lt (n := 8) (m := k) hb
    rw [Nat.add_comm k 8]
    exact this
  rw [lor_two_pow_add _ _ _ hbk, Nat.shiftLeft_eq, Nat.shiftLeft_eq, Nat.pow_add]
  ring

/-- Eight big-endian bytes or-ed together equal the base-256 expansion. -/
theorem be_bytes8 (b1 b2 b3 b4 b5 b6 b7 b8 : Nat) (h2 : b2 < 256) (h3 : b3 < 256)
    (h4 : b4 < 256) (h5 : b5 < 256) (h6 : b6 < 256) (h7 : b7 < 256) (h8 : b8 < 256) :
    b1 <<< 56 ||| b2 <<< 48 ||| b3 <<< 40 ||| b4 <<< 32 ||| b5 <<< 24 |||
      b6 <<< 16 ||| b7 <<< 8 ||| b8 =
    ((((((b1 * 256 + b2) * 256 + b3) * 256 + b4) * 256 + b5) * 256 + b6) * 256 + b7)
      * 256 + b8 := by
  rw [show (56 : Nat) = 48 + 8 from rfl, lor_byte_step _ _ _ h2]
  rw [show (48 : Nat) = 40 + 8 from rfl, lor_byte_step _ _ _ h3]
  rw [show (40 : Nat) = 32 + 8 from rfl, lor_byte_step _ _ _ h4]
  rw [show (32 : Nat) = 24 + 8 from rfl, lor_byte_step _ _ _ h5]
  rw [show (24 : Nat) = 16 + 8 from rfl, lor_byte_step _ _ _ h6]
  rw [show (16 : Nat) = 8 + 8 from rfl, lor_byte_step _ _ _ h7]
  rw [lor_two_pow_add _ _ _ (show b8 < 2 ^ 8 by omega)]
  norm_num

/-- `wrap32` is the identity on the `i32` range. -/
theorem wrap32_eq_self (n : Int) (hlo : -2 ^ 31 ≤ n) (hhi : n < 2 ^ 31) :
    wrap32 n = n := by
  unfold wrap32
  rw [Int.emod_eq_of_lt (by omega) (by omega)]
  omega

/-- Destructure a successful `DecodeM.bind`. -/
theorem DecodeM.bind_eq_ok {α β : Type} {m : DecodeM α} {f : α → DecodeM β}
    {s : ReaderState} {b : β} {s2 : ReaderState}
    (h : DecodeM.bind m f s = .ok (b, s2)) :
    ∃ a s1, m s = .ok (a, s1) ∧ f a s1 = .ok (b, s2) := by
  unfold DecodeM.bind at h
  cases hm : m s with
  | ok p => exact ⟨p.1, p.2, rfl, by rw [hm] at h; exact h⟩
  | err e => rw [hm] at h; exact absurd h (by simp)
  | panic msg => rw [hm] at h; exact absurd h (by simp)

/-- `decode_itf8` never changes the stored previous alignment start. -/
theorem decode_itf8_prevAlignmentStart {e : Encoding} {s s1 : ReaderState} {n : Int}
    (h : decode_itf8 e s = .ok (n, s1)) :
    s1.prevAlignmentStart = s.prevAlignmentStart := by
  unfold decode_itf8 at h
  repeat' split at h
  all_goals
    first
      | exact DResult.noConfusion h
      | (injection h with h1; injection h1 with h2 h3; rw [← h3])

/-- Taking one byte past an index inside the list and dropping the last
taken byte is taking up to that index. -/
theorem dropLast_take_succ (l : List α) (i : Nat) (h : i < l.length) :
    (l.take (i + 1)).dropLast = l.take i := by
  rw [List.dropLast_eq_take, List.length_take, List.take_take]
  congr 1
  omega

/-!
## Claim theorems
-/

/-- C9: `read_ltf8` decodes `[0x00]` to 0, `[0x55]` to 85, `[0x80,0xaa]` to
170, `[0xc0,0x55,0xaa]` to 21930 and
`[0xff,0xff,0xff,0xff,0xff,0xff,0xff,0xff,0x56]` to -170; and in the terminal
tier (first byte `0xff`) the value is exactly the following eight bytes read
as a plain big-endian signed 64-bit integer, with no bits taken from the
first byte. -/
theorem c9_read_ltf8_vectors_and_terminal_tier :
    read_ltf8 [0x00] = some (0, []) ∧
    read_ltf8 [0x55] = some (85, []) ∧
    read_ltf8 [0x80, 0xaa] = some (170, []) ∧
    read_ltf8 [0xc0, 0x55, 0xaa] = some (21930, []) ∧
    read_ltf8 [0xff, 0xff, 0xff, 0xff, 0xff, 0xff, 0xff, 0xff, 0x56] =
      some (-170, []) ∧
    ∀ (b1 b2 b3 b4 b5 b6 b7 b8 : Nat) (rest : List Nat),
      b1 < 256 → b2 < 256 → b3 < 256 → b4 < 256 →
      b5 < 256 → b6 < 256 → b7 < 256 → b8 < 256 →
      read_ltf8 (0xff :: b1 :: b2 :: b3 :: b4 :: b5 :: b6 :: b7 :: b8 :: rest) =
        some (toSigned64
          (((((((b1 * 256 + b2) * 256 + b3) * 256 + b4) * 256 + b5) * 256 + b6)
            * 256 + b7) * 256 + b8), rest) := by
  refine ⟨by decide, by decide, by decide, by decide, by decide, ?_⟩
  intro b1 b2 b3 b4 b5 b6 b7 b8 rest _ h2 h3 h4 h5 h6 h7 h8
  have hred :
      read_ltf8 (0xff :: b1 :: b2 :: b3 :: b4 :: b5 :: b6 :: b7 :: b8 :: rest) =
        some (toSigned64
          (b1 <<< 56 ||| b2 <<< 48 ||| b3 <<< 40 ||| b4 <<< 32 ||| b5 <<< 24 |||
            b6 <<< 16 ||| b7 <<< 8 ||| b8), rest) := rfl
  rw [hred, be_bytes8 b1 b2 b3 b4 b5 b6 b7 b8 h2 h3 h4 h5 h6 h7 h8]

/-- Witness for C9: the terminal-tier statement applied to the repository's
own nine-byte test vector. -/
theorem c9_witness :
    read_ltf8 [0xff, 0x55, 0xaa, 0xcc, 0x33, 0xe3, 0x1c, 0xf0, 0x0f] =
      some (6172970762490408975, []) := by
  have h := c9_read_ltf8_vectors_and_terminal_tier.2.2.2.2.2
    0x55 0xaa 0xcc 0x33 0xe3 0x1c 0xf0 0x0f []
    (by decide) (by decide) (by decide) (by decide)
    (by decide) (by decide) (by decide) (by decide)
  rw [h]
  decide

/-- C10: for a Huffman encoding whose alphabet is a single symbol, the
single-byte and single-integer evaluators return that symbol (narrowed with
`as u8` by the byte evaluator) and leave the reader state — in particular the
core bit stream — untouched: zero bits are consumed. -/
theorem c10_single_symbol_huffman_zero_bits (a : Int) (bitLens : List Int)
    (s : ReaderState) :
    decode_byte (.huffman [a] bitLens) s = .ok (u8OfInt a, s) ∧
    decode_itf8 (.huffman [a] bitLens) s = .ok (a, s) :=
  ⟨rfl, rfl⟩

/-- C2 (amended): an encoding variant outside the supported set of the
requested shape — `ByteArrayLen`/`ByteArrayStop` for the single-byte and
single-integer evaluators, `Huffman`/`Beta` for the byte-array evaluator —
hits the `todo!` macro: a panic, not a returned decode error. -/
theorem c2_unsupported_variants_panic :
    (∀ (e1 e2 : Encoding) (s : ReaderState),
      decode_byte (.byteArrayLen e1 e2) s =
        .panic "decode_byte: unimplemented encoding") ∧
    (∀ (stopByte : Nat) (id : Int) (s : ReaderState),
      decode_byte (.byteArrayStop stopByte id) s =
        .panic "decode_byte: unimplemented encoding") ∧
    (∀ (e1 e2 : Encoding) (s : ReaderState),
      decode_itf8 (.byteArrayLen e1 e2) s =
        .panic "decode_itf8: unimplemented encoding") ∧
    (∀ (stopByte : Nat) (id : Int) (s : ReaderState),
      decode_itf8 (.byteArrayStop stopByte id) s =
        .panic "decode_itf8: unimplemented encoding") ∧
    (∀ (alphabet bitLens : List Int) (buf : Option (List Nat)) (s : ReaderState),
      decode_byte_array (.huffman alphabet bitLens) buf s =
        .panic "decode_byte_array: unimplemented encoding") ∧
    (∀ (offset : Int) (len : Nat) (buf : Option (List Nat)) (s : ReaderState),
      decode_byte_array (.beta offset len) buf s =
        .panic "decode_byte_array: unimplemented encoding") :=
  ⟨fun _ _ _ => rfl, fun _ _ _ => rfl, fun _ _ _ => rfl, fun _ _ _ => rfl,
   fun _ _ _ _ => rfl, fun _ _ _ _ => rfl⟩

/-- Counterexample to C2 as stated: a `ByteArrayStop` encoding passed to the
single-byte evaluator panics instead of returning a decode error. -/
theorem c2_counterexample :
    decode_byte (.byteArrayStop 0 1) ⟨[], [(1, [110])], none⟩ =
      .panic "decode_byte: unimplemented encoding" ∧
    (decode_byte (.byteArrayStop 0 1) ⟨[], [(1, [110])], none⟩).isErr = false :=
  ⟨rfl, rfl⟩

/-- C5: `decode_byte_array` on a plain `External` encoding with no
caller-supplied buffer panics via `expect("missing buf")` whenever the named
external stream exists; `read_read_name` passes no buffer, so a read-name
series encoded directly as `External` hits that panic. -/
theorem c5_external_byte_array_without_buf_panics :
    (∀ (id : Int) (s : ReaderState) (stream : List Nat),
      getExternal s.external id = some stream →
      decode_byte_array (.external id) none s = .panic "missing buf") ∧
    (∀ (h : CompressionHeader) (id : Int) (s : ReaderState) (stream : List Nat),
      h.dataSeriesEncodingMap.readNamesEncoding = some (.external id) →
      getExternal s.external id = some stream →
      read_read_name h s = .panic "missing buf") := by
  constructor
  · intro id s stream hs
    simp [decode_byte_array, hs]
  · intro h id s stream henc hs
    unfold read_read_name requiredEncoding
    rw [henc]
    show decode_byte_array (.external id) none s = _
    simp [decode_byte_array, hs]

/-- Witness for C5 at a concrete stream. -/
theorem c5_witness :
    decode_byte_array (.external 1) none ⟨[], [(1, [110])], none⟩ =
      .panic "missing buf" :=
  c5_external_byte_array_without_buf_panics.1 1 ⟨[], [(1, [110])], none⟩ [110]
    (by decide)

/-- C4 (amended): for `ByteArrayStop(sentinel, stream_id)`,
`decode_byte_array` returns exactly the bytes of the named external stream
preceding the first occurrence of the sentinel, the sentinel excluded and
consumed; when the stream holds no sentinel, the call does not fail — it
succeeds, returning the whole remaining stream with its final byte dropped. -/
theorem c4_byte_array_stop_reads_to_sentinel (sentinel : Nat) (id : Int)
    (s : ReaderState) (stream : List Nat)
    (hs : getExternal s.external id = some stream) :
    (∀ i, stream.findIdx? (· == sentinel) = some i →
      decode_byte_array (.byteArrayStop sentinel id) none s =
        .ok (stream.take i,
          { s with external := setExternal s.external id (stream.drop (i + 1)) })) ∧
    (stream.findIdx? (· == sentinel) = none →
      decode_byte_array (.byteArrayStop sentinel id) none s =
        .ok (stream.dropLast, { s with external := setExternal s.external id [] })) := by
  constructor
  · intro i hi
    have hlt : i < stream.length :=
      (List.findIdx?_eq_some_iff_findIdx_eq.mp hi).1
    simp only [decode_byte_array, hs, read_until, hi]
    rw [dropLast_take_succ _ _ hlt]
  · intro hnone
    simp only [decode_byte_array, hs, read_until, hnone]

/-- Witness for C4 on the repository's own test stream. -/
theorem c4_witness :
    decode_byte_array (.byteArrayStop 0 1) none
      ⟨[], [(1, [110, 100, 108, 115, 0])], none⟩ =
    .ok ([110, 100, 108, 115], ⟨[], [(1, [])], none⟩) := by
  have h := (c4_byte_array_stop_reads_to_sentinel 0 1
    ⟨[], [(1, [110, 100, 108, 115, 0])], none⟩ [110, 100, 108, 115, 0]
    (by decide)).1 4 (by decide)
  rw [h]
  decide

/-- Counterexample to C4 as stated: with no sentinel byte in the stream the
call succeeds — the remaining bytes with the final byte silently removed —
instead of failing with a premature-end-of-stream error. -/
theorem c4_counterexample :
    decode_byte_array (.byteArrayStop 0 1) none
      ⟨[], [(1, [110, 100, 108, 115])], none⟩ =
      .ok ([110, 100, 108], ⟨[], [(1, [])], none⟩) ∧
    (decode_byte_array (.byteArrayStop 0 1) none
      ⟨[], [(1, [110, 100, 108, 115])], none⟩).isErr = false :=
  ⟨by decide, by decide⟩

/-- A minimal compression header whose mandatory slots decode constants via
single-symbol Huffman alphabets (BAM flags constant 4: unmapped) and whose
tag dictionary holds one empty key set. -/
def constHeader : CompressionHeader where
  preservationMap :=
    { readNamesIncluded := false
      apDataSeriesDelta := false
      tagIdsDictionary := [[]] }
  dataSeriesEncodingMap :=
    { bamBitFlagsEncoding := .huffman [4] [0]
      cramBitFlagsEncoding := .huffman [0] [0]
      readLengthsEncoding := .huffman [0] [0]
      inSeqPositionsEncoding := .huffman [0] [0]
      readGroupsEncoding := .huffman [0] [0]
      tagIdsEncoding := .huffman [0] [0] }
  tagEncodingMap := []

/-- `constHeader` with alignment-start delta coding on and a constant delta
of 3. -/
def deltaHeader : CompressionHeader :=
  { constHeader with
      preservationMap := { constHeader.preservationMap with apDataSeriesDelta := true }
      dataSeriesEncodingMap :=
        { constHeader.dataSeriesEncodingMap with
            inSeqPositionsEncoding := .huffman [3] [0] } }

/-- `constHeader` with read length 1 and the bases series Beta-coded so that
one core bit decodes to the out-of-byte-range integer 301. -/
def betaBasesHeader : CompressionHeader :=
  { constHeader with
      dataSeriesEncodingMap :=
        { constHeader.dataSeriesEncodingMap with
            readLengthsEncoding := .huffman [1] [0]
            basesEncoding := some (.beta (-300) 1) } }

/-- `constHeader` with the BAM bit flags decoding the constant 100000, which
does not fit `u16`. -/
def bigFlagsHeader : CompressionHeader :=
  { constHeader with
      dataSeriesEncodingMap :=
        { constHeader.dataSeriesEncodingMap with
            bamBitFlagsEncoding := .huffman [100000] [0] } }

/-- `constHeader` with the tag line decoding the constant 5, past the end of
its one-entry tag dictionary. -/
def bigTagLineHeader : CompressionHeader :=
  { constHeader with
      dataSeriesEncodingMap :=
        { constHeader.dataSeriesEncodingMap with
            tagIdsEncoding := .huffman [5] [0] } }

/-- C7: a decoded tag line that is nonnegative but at least the number of
key-sets in the tag dictionary makes `read_tag_data` fail with the
structural "invalid tag line" decode error — an error value, not a panic or
an out-of-bounds read. -/
theorem c7_invalid_tag_line_is_structural_error (h : CompressionHeader)
    (s s1 : ReaderState) (t : Int)
    (hd : decode_itf8 h.dataSeriesEncodingMap.tagIdsEncoding s = .ok (t, s1))
    (h0 : 0 ≤ t)
    (hlen : h.preservationMap.tagIdsDictionary.length ≤ t.toNat) :
    read_tag_data h s = .err (.invalidData "invalid tag line") := by
  unfold read_tag_data read_tag_line
  simp only [DecodeM.bind, DecodeM.pure, DecodeM.ofOption, hd, if_pos h0,
    List.getElem?_eq_none hlen]

/-- Witness for C7: tag line 5 against a one-entry dictionary. -/
theorem c7_witness :
    read_tag_data bigTagLineHeader ⟨[], [], none⟩ =
      .err (.invalidData "invalid tag line") :=
  c7_invalid_tag_line_is_structural_error bigTagLineHeader ⟨[], [], none⟩
    ⟨[], [], none⟩ 5 rfl (by decide) (by decide)

/-- C3 (amended): when the decoded BAM bit-flags integer does not fit `u16`,
the whole `read_record` call returns the structured out-of-range conversion
error and no record; single-byte series narrowed with `as u8` (Huffman,
Beta), in contrast, truncate silently (see the counterexample). -/
theorem c3_bit_flags_out_of_range_aborts (h : CompressionHeader)
    (rid : ContainerRefId) (s s1 : ReaderState) (n : Int)
    (hd : decode_itf8 h.dataSeriesEncodingMap.bamBitFlagsEncoding s = .ok (n, s1))
    (hout : n < 0 ∨ 65536 ≤ n) :
    read_record h rid s = .err (.invalidData "out of range integral type conversion") := by
  unfold read_record read_bam_bit_flags
  have hneg : ¬(0 ≤ n ∧ n < 65536) := by omega
  simp only [DecodeM.bind, DecodeM.throw, hd, if_neg hneg]

/-- Witness for C3: BAM flags decoding to 100000 abort the record. -/
theorem c3_witness :
    read_record bigFlagsHeader .unmapped ⟨[], [], none⟩ =
      .err (.invalidData "out of range integral type conversion") :=
  c3_bit_flags_out_of_range_aborts bigFlagsHeader .unmapped ⟨[], [], none⟩
    ⟨[], [], none⟩ 100000 rfl (Or.inr (by decide))

/-- Counterexample to C3 as stated: a Beta-coded base decodes to the integer
301, outside `0..=255`, yet `read_record` succeeds, storing the truncated
byte 45 — no structured error is returned for this narrow target. -/
theorem c3_counterexample :
    decode_itf8 (.beta (-300) 1) ⟨[true], [], none⟩ = .ok (301, ⟨[], [], none⟩) ∧
    read_record betaBasesHeader .unmapped ⟨[true], [], none⟩ =
      .ok ({ bamBitFlags := 4, readLength := 1, bases := [45] }, ⟨[], [], none⟩) :=
  ⟨by decide, by decide⟩

/-- C8: with the preservation map's delta flag set, the decoded value is a
delta added to the stored previous alignment start (0 when unset); a
resulting 0 decodes to the unset (`none`) alignment start, a positive result
to that position; and every successful `read_record` stores the new record's
alignment start as the previous alignment start for the next call. -/
theorem c8_alignment_start_delta_and_state :
    (∀ (h : CompressionHeader) (s s1 : ReaderState) (delta : Int),
      h.preservationMap.apDataSeriesDelta = true →
      decode_itf8 h.dataSeriesEncodingMap.inSeqPositionsEncoding s = .ok (delta, s1) →
      -2 ^ 31 ≤ s.prevAlignmentStart.getD 0 + delta →
      s.prevAlignmentStart.getD 0 + delta < 2 ^ 31 →
      read_alignment_start h s =
        if s.prevAlignmentStart.getD 0 + delta = 0 then .ok (none, s1)
        else if 0 < s.prevAlignmentStart.getD 0 + delta then
          .ok (some (s.prevAlignmentStart.getD 0 + delta), s1)
        else .err (.invalidData "invalid position")) ∧
    (∀ (h : CompressionHeader) (rid : ContainerRefId) (s : ReaderState)
        (r : CramRecord) (s1 : ReaderState),
      read_record h rid s = .ok (r, s1) →
      s1.prevAlignmentStart = r.alignmentStart) := by
  constructor
  · intro h s s1 delta hap hd hlo hhi
    have hprev := decode_itf8_prevAlignmentStart hd
    unfold read_alignment_start
    simp only [DecodeM.bind, DecodeM.pure, DecodeM.throw,
      DecodeM.getPrevAlignmentStart, hd, hap, if_true, hprev,
      wrap32_eq_self _ hlo hhi]
    split
    · rfl
    · split <;> rfl
  · intro h rid s r s1 hr
    unfold read_record at hr
    obtain ⟨a1, t1, h1, hr⟩ := DecodeM.bind_eq_ok hr
    obtain ⟨a2, t2, h2, hr⟩ := DecodeM.bind_eq_ok hr
    obtain ⟨a3, t3, h3, hr⟩ := DecodeM.bind_eq_ok hr
    obtain ⟨a4, t4, h4, hr⟩ := DecodeM.bind_eq_ok hr
    obtain ⟨a5, t5, h5, hr⟩ := DecodeM.bind_eq_ok hr
    obtain ⟨a6, t6, h6, hr⟩ := DecodeM.bind_eq_ok hr
    obtain ⟨a7, t7, h7, hr⟩ := DecodeM.bind_eq_ok hr
    unfold commit_record at hr
    injection hr with hp
    injection hp with hrec hst
    rw [← hst]
    show a7.alignmentStart = r.alignmentStart
    rw [hrec]

/-- Witness for C8: a constant delta of 3 against a previous start of 5, and
a concrete successful `read_record` whose final state stores the record's
alignment start. -/
theorem c8_witness :
    read_alignment_start deltaHeader ⟨[], [], some 5⟩ =
      .ok (some 8, ⟨[], [], some 5⟩) ∧
    (⟨[], [], none⟩ : ReaderState).prevAlignmentStart =
      ({ bamBitFlags := 4 } : CramRecord).alignmentStart := by
  constructor
  · have h := c8_alignment_start_delta_and_state.1 deltaHeader
      ⟨[], [], some 5⟩ ⟨[], [], some 5⟩ 3 rfl rfl (by decide) (by decide)
    rw [h]
    decide
  · exact c8_alignment_start_delta_and_state.2 constHeader .unmapped
      ⟨[], [], none⟩ { bamBitFlags := 4 } ⟨[], [], none⟩ (by decide)

/-! Projections of `set_mate`: the fields mate resolution's template-size
computation reads are untouched by the linking updates. -/

@[simp] theorem set_mate_fst_alignmentStart (a b : CramRecord) :
    (set_mate a b).1.alignmentStart = a.alignmentStart := by
  unfold set_mate
  repeat' split
  all_goals rfl

@[simp] theorem set_mate_fst_alignmentEnd (a b : CramRecord) :
    (set_mate a b).1.alignmentEnd = a.alignmentEnd := by
  unfold set_mate
  repeat' split
  all_goals rfl

@[simp] theorem set_mate_fst_templateSize (a b : CramRecord) :
    (set_mate a b).1.templateSize = a.templateSize := by
  unfold set_mate
  repeat' split
  all_goals rfl

@[simp] theorem set_mate_snd_alignmentStart (a b : CramRecord) :
    (set_mate a b).2.alignmentStart = b.alignmentStart := by
  unfold set_mate
  repeat' split
  all_goals rfl

@[simp] theorem set_mate_snd_alignmentEnd (a b : CramRecord) :
    (set_mate a b).2.alignmentEnd = b.alignmentEnd := by
  unfold set_mate
  repeat' split
  all_goals rfl

@[simp] theorem set_mate_snd_templateSize (a b : CramRecord) :
    (set_mate a b).2.templateSize = b.templateSize := by
  unfold set_mate
  repeat' split
  all_goals rfl

/-- The head of a two-record mate chain: downstream distance 0 links it to
the following record. -/
def c1head : CramRecord :=
  { id := 1, cramBitFlags := 4, alignmentStart := some 5, alignmentEnd := 8,
    distanceToNextFragment := 0 }

/-- The tail of the two-record chain. -/
def c1tail : CramRecord :=
  { id := 2, alignmentStart := some 13, alignmentEnd := 16 }

/-- Counterexample to C1 as stated: for the chain head (start 5, end 8)
linked to the tail (start 13, end 16), the claim predicts the head's
template size to be `tail.alignment_end - head.alignment_start + 1 = 12` and
the tail's to be `-12`; `resolve_mates` instead produces `[4, -4]` — the
computation uses the head's end and the tail's start, and the positive value
lands on the tail. -/
theorem c1_counterexample :
    (resolve_mates [c1head, c1tail]).map (fun l => l.map fun r => r.templateSize) =
      some [4, -4] ∧
    c1tail.alignmentEnd - c1head.alignmentStart.getD 0 + 1 = 12 :=
  ⟨by decide, by decide⟩

/-- C1 (amended): for a record list forming a single two-record chain —
a head whose mate-downstream distance 0 links it directly to the tail —
`resolve_mates` computes the template size as
`head.alignment_end - tail.alignment_start + 1` (in wrapping `i32`
arithmetic) and assigns that value positively to the chain tail's
`template_size` field and negated to the chain head's. -/
theorem c1_two_record_chain_template_size (rh rt : CramRecord)
    (hflag : cramHasMateDownstream rh.cramBitFlags = true)
    (hdist : rh.distanceToNextFragment = 0)
    (tflag : cramHasMateDownstream rt.cramBitFlags = false) :
    (resolve_mates [rh, rt]).map (fun l => l.map fun r => r.templateSize) =
      some [wrap32 (-(wrap32 (rh.alignmentEnd - rt.alignmentStart.getD 0 + 1))),
            wrap32 (rh.alignmentEnd - rt.alignmentStart.getD 0 + 1)] := by
  by_cases hn : rh.readName = [] <;>
    norm_num [resolve_mates, compute_mate_indices, compute_mate_indices_go,
      compute_mate_index, resolve_loop, resolve_step, chain_walk,
      synthesize_read_name, calculate_template_size, usizeOfInt, List.getD,
      hflag, hdist, tflag, hn]

/-- Witness for C1 at the counterexample's two records. -/
theorem c1_witness :
    (resolve_mates [c1head, c1tail]).map (fun l => l.map fun r => r.templateSize) =
      some [wrap32 (-(wrap32 (c1head.alignmentEnd - c1tail.alignmentStart.getD 0 + 1))),
            wrap32 (c1head.alignmentEnd - c1tail.alignmentStart.getD 0 + 1)] :=
  c1_two_record_chain_template_size c1head c1tail (by decide) (by decide) (by decide)

/-! Lemmas on the two passes of `resolve_mates`. -/

theorem compute_mate_indices_go_length (k : Nat) (l : List CramRecord) :
    (compute_mate_indices_go k l).length = l.length := by
  induction l generalizing k with
  | nil => rfl
  | cons r rest ih => simp [compute_mate_indices_go, ih]

theorem compute_mate_indices_go_get (k : Nat) (l : List CramRecord) (i : Nat) :
    (compute_mate_indices_go k l)[i]? =
      l[i]?.map fun r => compute_mate_index (k + i) r := by
  induction l generalizing k i with
  | nil => simp [compute_mate_indices_go]
  | cons r rest ih =>
    cases i with
    | zero => simp [compute_mate_indices_go]
    | succ i =>
      simp only [compute_mate_indices_go, List.getElem?_cons_succ]
      rw [ih (k + 1) i]
      have harith : k + 1 + i = k + (i + 1) := by omega
      rw [harith]

theorem compute_mate_indices_length (records : List CramRecord) :
    (compute_mate_indices records).length = records.length :=
  compute_mate_indices_go_length 0 records

theorem compute_mate_indices_get (records : List CramRecord) (i : Nat) :
    (compute_mate_indices records)[i]? =
      records[i]?.map fun r => compute_mate_index i r := by
  have h := compute_mate_indices_go_get 0 records i
  simpa [compute_mate_indices] using h

theorem chain_walk_length (mi : List (Option Nat)) :
    ∀ (fuel : Nat) (recs : List CramRecord) (j : Nat) (out : List CramRecord)
      (tl : Nat), chain_walk mi fuel recs j = some (out, tl) →
      out.length = recs.length := by
  intro fuel
  induction fuel with
  | zero =>
    intro recs j out tl h
    exact absurd h (by simp [chain_walk])
  | succ fuel ih =>
    intro recs j out tl h
    unfold chain_walk at h
    split at h
    · exact Option.noConfusion h
    · injection h with h1
      injection h1 with h2 h3
      rw [← h2]
    · split at h
      · split at h
        · exact Option.noConfusion h
        · have := ih _ _ _ _ h
          simpa [List.length_set] using this
      · exact Option.noConfusion h

theorem resolve_step_length (mi : List (Option Nat)) (recs : List CramRecord)
    (i : Nat) (out : List CramRecord) (h : resolve_step mi recs i = some out) :
    out.length = recs.length := by
  unfold resolve_step at h
  split at h
  · split at h
    · rename_i records2 tl hwalk
      split at h
      · exact Option.noConfusion h
      · injection h with h1
        have hw := chain_walk_length mi _ _ _ _ _ hwalk
        rw [← h1]
        simp only [List.length_set] at hw ⊢
        exact hw
    · exact Option.noConfusion h
  · injection h with h1
    rw [← h1]

theorem resolve_loop_length (mi : List (Option Nat)) :
    ∀ (is : List Nat) (recs : List CramRecord) (out : List CramRecord),
      resolve_loop mi is recs = some out → out.length = recs.length := by
  intro is
  induction is with
  | nil =>
    intro recs out h
    injection h with h1
    rw [← h1]
  | cons i rest ih =>
    intro recs out h
    unfold resolve_loop at h
    split at h
    · rename_i recs1 hstep
      have h1 := resolve_step_length mi recs i recs1 hstep
      have h2 := ih recs1 out h
      omega
    · exact Option.noConfusion h

/-- A record whose computed mate index falls outside the list makes
`resolve_step` at its own index fail (the vector-indexing panic). -/
theorem resolve_step_oob (mi : List (Option Nat)) (recs : List CramRecord)
    (i m : Nat) (hmi : mi[i]? = some (some m)) (hm : recs.length ≤ m) :
    resolve_step mi recs i = none := by
  have hwalk :
      chain_walk mi
        ((recs.set i (synthesize_read_name (recs.getD i default))).length + 1)
        (recs.set i (synthesize_read_name (recs.getD i default))) i = none := by
    unfold chain_walk
    simp only [hmi]
    rw [if_neg (by simp only [List.length_set]; omega)]
  unfold resolve_step
  simp only [hmi, hwalk]

theorem resolve_loop_oob (mi : List (Option Nat)) (n : Nat) :
    ∀ (is : List Nat) (recs : List CramRecord), recs.length = n →
      (∃ i ∈ is, ∃ m, mi[i]? = some (some m) ∧ n ≤ m) →
      resolve_loop mi is recs = none := by
  intro is
  induction is with
  | nil =>
    intro recs _ hbad
    obtain ⟨i, hmem, _⟩ := hbad
    exact absurd hmem (List.not_mem_nil i)
  | cons i0 rest ih =>
    intro recs hlen hbad
    unfold resolve_loop
    obtain ⟨i, hmem, m, hmi, hm⟩ := hbad
    rcases List.mem_cons.mp hmem with rfl | hmem1
    · rw [resolve_step_oob mi recs i m hmi (hlen ▸ hm)]
    · cases hstep : resolve_step mi recs i0 with
      | none => rfl
      | some recs1 =>
        have hlen1 := resolve_step_length mi recs i0 recs1 hstep
        exact ih recs1 (by omega) ⟨i, hmem1, m, hmi, hm⟩

/-- One step of the chain walk along an in-range, non-self link. -/
theorem chain_walk_succ (mi : List (Option Nat)) (fuel : Nat)
    (recs : List CramRecord) (j m : Nat) (hmj : mi[j]? = some (some m))
    (hlt : m < recs.length) (hne : ¬m = j) :
    chain_walk mi (fuel + 1) recs j =
      chain_walk mi fuel
        ((recs.set j (set_mate (recs.getD j default) (recs.getD m default)).1).set m
          (set_mate (recs.getD j default) (recs.getD m default)).2) m := by
  conv_lhs => unfold chain_walk
  simp only [hmj]
  rw [if_pos hlt, if_neg hne]

/-- Forward, in-range mate links let the chain walk terminate at a tail
strictly beyond any linked start, preserving the list length. -/
theorem chain_walk_isSome (mi : List (Option Nat)) (n : Nat)
    (hmil : mi.length = n)
    (hmi : ∀ j m, mi[j]? = some (some m) → j < m ∧ m < n) :
    ∀ (fuel : Nat) (recs : List CramRecord) (j : Nat), recs.length = n →
      j < n → n - j < fuel →
      ∃ out tl, chain_walk mi fuel recs j = some (out, tl) ∧
        out.length = n ∧ j ≤ tl ∧ tl < n := by
  intro fuel
  induction fuel with
  | zero =>
    intro recs j _ _ hf
    omega
  | succ fuel ih =>
    intro recs j hlen hj hf
    cases hmj : mi[j]? with
    | none =>
      have := List.getElem?_eq_none_iff.mp hmj
      omega
    | some o =>
      cases o with
      | none =>
        refine ⟨recs, j, ?_, hlen, Nat.le_refl j, hj⟩
        unfold chain_walk
        rw [hmj]
      | some m =>
        obtain ⟨hjm, hmn⟩ := hmi j m hmj
        have hrec := ih ((recs.set j (set_mate (recs.getD j default)
          (recs.getD m default)).1).set m (set_mate (recs.getD j default)
          (recs.getD m default)).2) m (by simp [List.length_set]; omega)
          hmn (by omega)
        obtain ⟨out, tl, hw, hlo, hle, hlt⟩ := hrec
        refine ⟨out, tl, ?_, hlo, by omega, hlt⟩
        rw [chain_walk_succ mi fuel recs j m hmj (by omega) (by omega)]
        exact hw

theorem resolve_step_isSome (mi : List (Option Nat)) (n : Nat)
    (hmil : mi.length = n)
    (hmi : ∀ j m, mi[j]? = some (some m) → j < m ∧ m < n)
    (recs : List CramRecord) (i : Nat) (hlen : recs.length = n) :
    (resolve_step mi recs i).isSome = true := by
  cases hmj : mi[i]? with
  | none =>
    unfold resolve_step
    simp only [hmj, Option.isSome_some]
  | some o =>
    cases o with
    | none =>
      unfold resolve_step
      simp only [hmj, Option.isSome_some]
    | some m =>
      obtain ⟨him, hmn⟩ := hmi i m hmj
      set recs1 := recs.set i (synthesize_read_name (recs.getD i default))
        with hrecs1
      set p := set_mate (recs1.getD i default) (recs1.getD m default) with hp
      set recs2 := (recs1.set i p.1).set m p.2 with hrecs2
      have hlen1 : recs1.length = n := by
        rw [hrecs1]
        simp [List.length_set, hlen]
      have hlen2 : recs2.length = n := by
        rw [hrecs2]
        simp [List.length_set, hlen1]
      obtain ⟨out2, tl, hw, hlo, hle, hlt⟩ :=
        chain_walk_isSome mi n hmil hmi recs1.length recs2 m hlen2 hmn (by omega)
      unfold resolve_step
      simp only [hmj, ← hrecs1]
      rw [chain_walk_succ mi recs1.length recs1 i m hmj (by omega) (by omega)]
      rw [← hp, ← hrecs2]
      simp only [hw]
      rw [if_neg (by omega : ¬tl = i)]
      simp only [Option.isSome_some]

theorem resolve_loop_isSome (mi : List (Option Nat)) (n : Nat)
    (hmil : mi.length = n)
    (hmi : ∀ j m, mi[j]? = some (some m) → j < m ∧ m < n) :
    ∀ (is : List Nat) (recs : List CramRecord), recs.length = n →
      (resolve_loop mi is recs).isSome = true := by
  intro is
  induction is with
  | nil =>
    intro recs _
    rfl
  | cons i0 rest ih =>
    intro recs hlen
    have hs := resolve_step_isSome mi n hmil hmi recs i0 hlen
    obtain ⟨out, hstep⟩ := Option.isSome_iff_exists.mp hs
    have hlo : out.length = n := by
      rw [resolve_step_length mi recs i0 out hstep]
      exact hlen
    unfold resolve_loop
    rw [hstep]
    exact ih out hlo

/-- A lone record whose flagged downstream distance points past the end of
the list. -/
def c6oob : CramRecord :=
  { id := 3, cramBitFlags := 4, distanceToNextFragment := 5 }

/-- A record whose negative downstream distance wraps back inside the
list. -/
def c6backward : CramRecord :=
  { id := 2, cramBitFlags := 4, distanceToNextFragment := -2 }

/-- The plain record the backward link points at. -/
def c6plain : CramRecord := { id := 1 }

/-- A two-record forward chain: distance 0 links index 0 to index 1. -/
def c6fwd : CramRecord :=
  { id := 1, cramBitFlags := 4, distanceToNextFragment := 0 }

/-- Counterexample to C6 as stated: a record with the mate-downstream flag
and a negative distance need not panic — here the wrapped index
`1 + (-2 as usize) + 1 (mod 2^64) = 0` lands back in range and
`resolve_mates` returns a list of length 2 normally. -/
theorem c6_counterexample :
    c6backward.distanceToNextFragment < 0 ∧
    cramHasMateDownstream c6backward.cramBitFlags = true ∧
    (resolve_mates [c6plain, c6backward]).map List.length = some 2 :=
  ⟨by decide, by decide, by decide⟩

/-- C6 (amended): `resolve_mates` is not total over its inputs.  Whenever it
returns a list, that list has the length of its input; if any record's
computed mate index (`current_index + distance-as-usize + 1`, wrapped mod
`2^64`) is at least the number of records, it panics with an out-of-bounds
index (modelled as `none`) instead of returning an error; and when every
record carrying the mate-downstream flag has a nonnegative distance with its
computed mate index in range, it terminates normally with a list of the same
length. -/
theorem c6_resolve_mates_totality :
    (∀ (records out : List CramRecord), resolve_mates records = some out →
      out.length = records.length) ∧
    (∀ (records : List CramRecord) (i m : Nat),
      (compute_mate_indices records)[i]? = some (some m) →
      records.length ≤ m →
      resolve_mates records = none) ∧
    (∀ records : List CramRecord, records.length < 2 ^ 64 →
      (∀ i r, records[i]? = some r →
        cramHasMateDownstream r.cramBitFlags = true →
        0 ≤ r.distanceToNextFragment ∧
          i + r.distanceToNextFragment.toNat + 1 < records.length) →
      (resolve_mates records).isSome = true) := by
  refine ⟨?_, ?_, ?_⟩
  · intro records out h
    exact resolve_loop_length _ _ _ _ h
  · intro records i m hmi hm
    unfold resolve_mates
    apply resolve_loop_oob (compute_mate_indices records) records.length
      (List.range records.length) records rfl
    have hi : i < (compute_mate_indices records).length := by
      by_contra hc
      rw [List.getElem?_eq_none_iff.mpr (by omega)] at hmi
      exact Option.noConfusion hmi
    rw [compute_mate_indices_length] at hi
    exact ⟨i, List.mem_range.mpr hi, m, hmi, hm⟩
  · intro records hlen H
    unfold resolve_mates
    apply resolve_loop_isSome (compute_mate_indices records) records.length
      (compute_mate_indices_length records) ?_ (List.range records.length)
      records rfl
    intro j m hmj
    rw [compute_mate_indices_get] at hmj
    cases hr : records[j]? with
    | none =>
      rw [hr] at hmj
      exact Option.noConfusion hmj
    | some r =>
      rw [hr] at hmj
      simp only [Option.map_some'] at hmj
      injection hmj with hmj
      unfold compute_mate_index at hmj
      by_cases hflag : cramHasMateDownstream r.cramBitFlags = true
      · rw [if_pos hflag] at hmj
        injection hmj with hmj
        obtain ⟨hd0, hlt⟩ := H j r hr hflag
        have hdlt : r.distanceToNextFragment.toNat < 2 ^ 64 := by omega
        have husize :
            usizeOfInt r.distanceToNextFragment = r.distanceToNextFragment.toNat := by
          unfold usizeOfInt
          rw [Int.emod_eq_of_lt hd0 (by omega)]
        rw [husize] at hmj
        rw [Nat.mod_eq_of_lt (by omega)] at hmj
        omega
      · rw [if_neg hflag] at hmj
        exact Option.noConfusion hmj

/-- Witness for C6: an empty input for length preservation, a lone record
with mate index 6 for the out-of-bounds panic, and a clean two-record
forward chain for normal termination. -/
theorem c6_witness :
    ([] : List CramRecord).length = ([] : List CramRecord).length ∧
    resolve_mates [c6oob] = none ∧
    (resolve_mates [c6fwd, c6plain]).isSome = true := by
  refine ⟨c6_resolve_mates_totality.1 [] [] rfl, ?_, ?_⟩
  · exact c6_resolve_mates_totality.2.1 [c6oob] 0 6 (by decide) (by decide)
  · refine c6_resolve_mates_totality.2.2 [c6fwd, c6plain] (by decide) ?_
    intro i r hir hflag
    cases i with
    | zero =>
      simp only [List.getElem?_cons_zero] at hir
      injection hir with hir
      subst hir
      exact ⟨by decide, by decide⟩
    | succ i =>
      cases i with
      | zero =>
        simp only [List.getElem?_cons_succ, List.getElem?_cons_zero] at hir
        injection hir with hir
        subst hir
        exact absurd hflag (by decide)
      | succ i =>
        simp at hir

end Noodles
